import Mathlib

/-!
Verification of the TTS data-preparation pipeline
(src/pipeline/Data_cleaning/cleaning_fn.py and
src/pipeline/Data_loading/loader.py) against its specification.

Times and float samples are embedded as exact rationals (ℚ), machine
integers as ℤ with explicit 16-bit wraparound, Python per-file exceptions
as `Except String`, and filesystem paths as lists of components.
-/

set_option maxHeartbeats 1600000

namespace TTS

/-! ### Numeric domain: the float → int16 sample conversion (cleaning_fn.py line 68) -/

/-- Truncation of a rational toward zero, computed as the C-style truncating
division of the reduced numerator by the denominator.  This is the integer
produced by a C cast of the value, the operation behind numpy's
float → integer conversion. -/
def ratTrunc (q : ℚ) : ℤ := Int.tdiv q.num q.den

/-- Truncation toward zero stated through floor and ceiling: the claim-side
formulation of `trunc`, to be compared with the code-side `ratTrunc`. -/
def truncTowardZero (q : ℚ) : ℤ := if 0 ≤ q then ⌊q⌋ else ⌈q⌉

/-- Two's-complement wraparound of an integer into the signed 16-bit range
[-32768, 32767]. -/
def wrap16 (n : ℤ) : ℤ := Int.emod (n + 32768) 65536 - 32768

/-- Saturating (clamping) conversion of an integer to the nearest value of the
signed 16-bit range: the conversion the code does NOT perform. -/
def clamp16 (n : ℤ) : ℤ := max (-32768) (min 32767 n)

/-- Modelled from the spec: numpy's float → int16 array cast `np.int16(...)`
used at cleaning_fn.py line 68.  numpy is an external dependency whose code is
not under src/; spec §9 records that the source converts "by truncating
multiplication rather than proper rounding", and out-of-range values wrap in
the 16-bit two's-complement domain rather than saturate. -/
def npCastInt16 (x : ℚ) : ℤ := wrap16 (ratTrunc x)

/-- Per-sample embedding of cleaning_fn.py line 68,
`audio_data_int16 = np.int16(audio_data * 32767)`. -/
def audioSampleToInt16 (s : ℚ) : ℤ := npCastInt16 (s * 32767)

/-! ### Speech timeline and the trim-window resolver (cleaning_fn.py lines 82–90) -/

/-- One interval of detected speech, [start, stop) in seconds (`Segment` of the
external detector; the field `end` of the source is `stop` here, `end` being a
Lean keyword). -/
structure SpeechInterval where
  start : ℚ
  stop : ℚ
  deriving DecidableEq, Repr

/-- The single trim window [start, stop) retained for a file. -/
structure TrimWindow where
  start : ℚ
  stop : ℚ
  deriving DecidableEq, Repr

/-- Trim-window resolution, cleaning_fn.py lines 82–90: `none` when the
timeline is empty (the `len(speech_timeline) == 0` guard of lines 82–85),
otherwise `earliest_start = speech_timeline[0].start` and
`latest_end = speech_timeline[-1].end` (lines 89–90). -/
def resolveWindow (timeline : List SpeechInterval) : Option TrimWindow :=
  match timeline with
  | [] => none
  | i :: rest =>
    some ⟨i.start, (List.getLast (i :: rest) (List.cons_ne_nil i rest)).stop⟩

/-- Modelled from the spec: the buffer slicing `full_audio_segment[start_ms:end_ms]`
of cleaning_fn.py line 95 runs inside the external pydub library, whose code is
not under src/.  Spec §4.1: each boundary time is converted to a sample-frame
offset by `offset = round(time × frame_rate)` and the contiguous sub-range
`[start_offset, end_offset)` is returned; boundary times reach the library in
milliseconds, and the library clamps the window to the buffer (an empty or
reversed window yields an empty buffer rather than an error). -/
def segmentSliceMs (data : List ℤ) (frame_rate : ℕ) (startMs endMs : ℚ) : List ℤ :=
  let startOff := (round (startMs / 1000 * frame_rate)).toNat
  let endOff := (round (endMs / 1000 * frame_rate)).toNat
  (data.take endOff).drop startOff

/-! ### Helper lemmas on the numeric domain -/

/-- On nonnegative rationals, truncating division of numerator by denominator
is the floor. -/
theorem ratTrunc_of_nonneg {q : ℚ} (hq : 0 ≤ q) : ratTrunc q = ⌊q⌋ := by
  have hnum : 0 ≤ q.num := Rat.num_nonneg.mpr hq
  have hden : (0 : ℤ) ≤ (q.den : ℤ) := Int.natCast_nonneg q.den
  have hfl : (⌊q⌋ : ℤ) = q.num / (q.den : ℤ) := by
    conv_lhs => rw [← Rat.num_div_den q]
    exact Rat.floor_intCast_div_natCast q.num q.den
  rw [ratTrunc, Int.tdiv_eq_ediv hnum hden, hfl]

/-- The code-side truncation agrees with the claim-side floor/ceiling
formulation of truncation toward zero. -/
theorem ratTrunc_eq_truncTowardZero (q : ℚ) : ratTrunc q = truncTowardZero q := by
  rcases le_or_lt 0 q with hq | hq
  · rw [ratTrunc_of_nonneg hq, truncTowardZero, if_pos hq]
  · have hneg : 0 ≤ -q := by linarith
    have h1 : ratTrunc q = -ratTrunc (-q) := by
      rw [ratTrunc, ratTrunc, Rat.neg_num, Rat.neg_den, Int.neg_tdiv, neg_neg]
    rw [truncTowardZero, if_neg (not_le.mpr hq), h1, ratTrunc_of_nonneg hneg,
      Int.floor_neg, neg_neg]

/-- wrap16 is the identity on the representable range. -/
theorem wrap16_eq_self {n : ℤ} (h1 : -32768 ≤ n) (h2 : n ≤ 32767) : wrap16 n = n := by
  have : Int.emod (n + 32768) 65536 = n + 32768 :=
    Int.emod_eq_of_lt (by linarith) (by linarith)
  rw [wrap16, this]
  ring

/-- Truncation toward zero stays within a symmetric integer bound. -/
theorem truncTowardZero_bounds {q : ℚ} {B : ℤ} (hB : 0 ≤ B)
    (h1 : -(B : ℚ) ≤ q) (h2 : q ≤ (B : ℚ)) :
    -B ≤ truncTowardZero q ∧ truncTowardZero q ≤ B := by
  rw [truncTowardZero]
  rcases le_or_lt 0 q with hq | hq
  · rw [if_pos hq]
    constructor
    · have : (0 : ℤ) ≤ ⌊q⌋ := by
        rw [Int.le_floor]
        exact_mod_cast hq
      omega
    · have := Int.floor_le_floor h2
      rwa [Int.floor_intCast] at this
  · rw [if_neg (not_le.mpr hq)]
    constructor
    · have := Int.ceil_le_ceil h1
      rw [show (-(B : ℚ)) = ((-B : ℤ) : ℚ) by push_cast; ring, Int.ceil_intCast] at this
      exact this
    · have : ⌈q⌉ ≤ 0 := by
        rw [Int.ceil_le]
        exact_mod_cast hq.le
      omega

/-! ### Filesystem paths and the batch orchestrator (cleaning_fn.py lines 55–101) -/

/-- Filesystem paths as lists of components. -/
abbrev Path := List String

/-- Embedding of `os.path.join` for component paths. -/
def pathJoin (a b : Path) : Path := a ++ b

/-- Embedding of `os.path.relpath p base` for `p` lying below `base`:
the components of `p` after those of `base`. -/
def relPath (p base : Path) : Path := p.drop base.length

/-- Embedding of `os.path.dirname`: all components but the last. -/
def dirname (p : Path) : Path := p.dropLast

/-- Rendering of a component path for log messages. -/
def pathToString (p : Path) : String := String.intercalate "/" p

/-- Embedding of Python's `str.lower` at the ASCII level: per-character
lowercasing of the underlying character list (the filenames and extensions
compared by the source are ASCII). -/
def pyLower (s : String) : String := ⟨s.data.map Char.toLower⟩

/-- Embedding of Python's `str.endswith`. -/
def pyEndsWith (s suffix : String) : Bool := suffix.data.isSuffixOf s.data

/-- Message printed at cleaning_fn.py line 84. -/
def noSpeechLog (input_path : Path) : String :=
  "No speech found in " ++ pathToString input_path ++ ". Skipping."

/-- Message printed at cleaning_fn.py line 101. -/
def errorLog (input_path : Path) (e : String) : String :=
  "Error processing " ++ pathToString input_path ++ ": " ++ e

/-- Results of the per-file calls into the external world, fixed in advance as
an oracle: what `os.makedirs` (line 63), `librosa.load` (line 67), the VAD
pipeline (lines 79–80) and `export` (line 98) would do for this file.
An `.error` value is the exception the call would raise. -/
structure FileEnv where
  makedirsResult : Except String Unit
  decodeResult : Except String (List ℚ × ℕ)
  vadResult : Except String (List SpeechInterval)
  exportResult : Except String Unit
  deriving Repr

/-- Observable side effects of processing one file. -/
structure Effects where
  dirsCreated : List Path
  filesWritten : List (Path × List ℤ)
  logs : List String
  deriving DecidableEq, Repr

/-- Terminal state of one file of the batch. -/
inductive FileOutcome where
  | skippedExt
  | exported
  | noSpeech
  | failed (msg : String)
  deriving DecidableEq, Repr

/-- Embedding of the per-file body of the batch loop, cleaning_fn.py
lines 57–101.  `root` is the `os.walk` directory holding `filename`; external
calls read their results from `env`.  A returned `.error` is an exception that
escaped the per-file code and aborts the whole batch: only the extension test
(line 57), the path computations (lines 58–62) and `os.makedirs` (line 63) run
outside the `try` of lines 65–101, and of these only `os.makedirs` can raise. -/
def processFile (input_dir output_dir : Path) (file_ext : String)
    (root : Path) (filename : String) (env : FileEnv) :
    Except String (FileOutcome × Effects) :=
  if pyEndsWith (pyLower filename) (pyLower file_ext) then
    let input_path := pathJoin root [filename]
    let rel_path := relPath input_path input_dir
    let output_path := pathJoin output_dir rel_path
    match env.makedirsResult with
    | .error e => .error e
    | .ok _ =>
      let dirs := [dirname output_path]
      match env.decodeResult with
      | .error e => .ok (.failed e, ⟨dirs, [], [errorLog input_path e]⟩)
      | .ok (audio_data, sr) =>
        let audio_data_int16 := audio_data.map audioSampleToInt16
        match env.vadResult with
        | .error e => .ok (.failed e, ⟨dirs, [], [errorLog input_path e]⟩)
        | .ok speech_timeline =>
          match resolveWindow speech_timeline with
          | none => .ok (.noSpeech, ⟨dirs, [], [noSpeechLog input_path]⟩)
          | some w =>
            let start_ms := w.start * 1000
            let end_ms := w.stop * 1000
            let trimmed_segment := segmentSliceMs audio_data_int16 sr start_ms end_ms
            match env.exportResult with
            | .error e => .ok (.failed e, ⟨dirs, [], [errorLog input_path e]⟩)
            | .ok _ => .ok (.exported, ⟨dirs, [(output_path, trimmed_segment)], []⟩)
  else .ok (.skippedExt, ⟨[], [], []⟩)

/-- One file discovered by the `os.walk` traversal, with its oracle. -/
structure FileJob where
  root : Path
  filename : String
  env : FileEnv

/-- Embedding of the batch loop, cleaning_fn.py lines 55–101: files are
processed strictly in order; an exception escaping a file's boundary aborts
the batch (the remaining files are never reached). -/
def runBatch (input_dir output_dir : Path) (file_ext : String) :
    List FileJob → Except String (List (FileOutcome × Effects))
  | [] => .ok []
  | job :: rest =>
    match processFile input_dir output_dir file_ext job.root job.filename job.env with
    | .error e => .error e
    | .ok r => (runBatch input_dir output_dir file_ext rest).map (r :: ·)

/-! ### Metadata consolidator (loader.py, DataLoader.run) -/

/-- One row of an input TSV: its `path` key and the remaining column values. -/
structure RawRow where
  path : String
  cols : List String
  deriving DecidableEq, Repr

/-- An input row after loader.py line 72 tagged it with its origin file. -/
structure TaggedRow where
  path : String
  cols : List String
  source_file : String
  deriving DecidableEq, Repr

/-- A row of the combined table after the optional clip-durations merge. -/
structure MergedRow where
  path : String
  cols : List String
  source_file : String
  duration_ms : Option String
  deriving DecidableEq, Repr

/-- loader.py line 64: the fixed sequence of split files. -/
def files_to_include : List String :=
  ["train.tsv", "test.tsv", "dev.tsv", "validated.tsv", "other.tsv"]

/-- loader.py lines 65–75: the list `dfs` — each present file, read in the
fixed order, its rows tagged with `source_file = filename`.  The input
directory is modelled by `tables`, with `tables fn = none` for a missing
file. -/
def gatherDfs (tables : String → Option (List RawRow)) : List (List TaggedRow) :=
  files_to_include.filterMap (fun fn =>
    (tables fn).map (fun rows => rows.map (fun r => ⟨r.path, r.cols, fn⟩)))

/-- loader.py line 82: `pd.concat(dfs, ignore_index=True)`. -/
def combinedRows (tables : String → Option (List RawRow)) : List TaggedRow :=
  (gatherDfs tables).flatten

/-- One left row of the pandas `how="left"` merge on `"path"` (loader.py
line 94): the row expands to one output row per matching durations row, in
the right table's order, or passes through without a duration when nothing
matches. -/
def leftMergeRow (durations : List (String × String)) (r : TaggedRow) : List MergedRow :=
  match durations.filter (fun d => d.1 == r.path) with
  | [] => [⟨r.path, r.cols, r.source_file, none⟩]
  | d :: ds => (d :: ds).map (fun m => ⟨r.path, r.cols, r.source_file, some m.2⟩)

/-- loader.py lines 88–96: merge with clip_durations.tsv when that file is
present (`durations = some _`), otherwise keep the combined table without a
duration column. -/
def mergedRows (tables : String → Option (List RawRow))
    (durations : Option (List (String × String))) : List MergedRow :=
  match durations with
  | none => (combinedRows tables).map (fun r => ⟨r.path, r.cols, r.source_file, none⟩)
  | some durs => ((combinedRows tables).map (leftMergeRow durs)).flatten

/-- loader.py line 102: `drop_duplicates(subset="path")` — pandas keeps the
first occurrence of each key.  `seen` accumulates the keys already kept. -/
def dropDupByPath : List MergedRow → List String → List MergedRow
  | [], _ => []
  | r :: rs, seen =>
    if r.path ∈ seen then dropDupByPath rs seen
    else r :: dropDupByPath rs (r.path :: seen)

/-- One line of the saved TSV (`to_csv` with tab separator, no index). -/
def rowToTsv (r : MergedRow) : String :=
  String.intercalate "\t" (r.path :: r.cols ++ [r.source_file, r.duration_ms.getD ""]) ++ "\n"

/-- Serialization of the saved table, header line first. -/
def tableToTsv (rows : List MergedRow) : String :=
  "path\tsource_file\tduration_ms\n" ++ String.join (rows.map rowToTsv)

/-- The W&B artifact record logged at loader.py lines 122–139. -/
structure Artifact where
  file_path : Path
  size_bytes : ℕ
  num_rows : ℕ
  deriving DecidableEq, Repr

/-- Embedding of DataLoader.run, loader.py lines 39–147: gather the present
TSVs, return `none` when none is present (the early return of lines 77–80),
otherwise merge durations, drop duplicate paths, save
`output_dir/complete_data.tsv` and log the artifact carrying the output path,
the saved file's byte size and the final row count. -/
def loaderRun (output_dir : Path)
    (tables : String → Option (List RawRow))
    (durations : Option (List (String × String))) :
    Option (List MergedRow × Path × Artifact) :=
  if (gatherDfs tables).isEmpty then none
  else
    let combined_df := mergedRows tables durations
    let final_df := dropDupByPath combined_df []
    let out_path := pathJoin output_dir ["complete_data.tsv"]
    let file_size := (tableToTsv final_df).utf8ByteSize
    some (final_df, out_path, ⟨out_path, file_size, final_df.length⟩)

/-! ### Helper lemmas on the orchestrator -/

/-- Path computation: re-rooting a file discovered in `input_dir ++ sub` onto
the output root. -/
theorem relPath_pathJoin (input_dir sub : Path) (filename : String) :
    relPath (pathJoin (pathJoin input_dir sub) [filename]) input_dir
      = pathJoin sub [filename] := by
  show ((input_dir ++ sub) ++ [filename]).drop input_dir.length = sub ++ [filename]
  rw [List.append_assoc, List.drop_left]

/-- Dropping the filename from a joined path gives back the directory. -/
theorem dirname_pathJoin_singleton (p : Path) (filename : String) :
    dirname (pathJoin p [filename]) = p := by
  show (p ++ [filename]).dropLast = p
  exact List.dropLast_concat

/-- Once the per-file `os.makedirs` call succeeds, no exception escapes the
file boundary: every decode, detect or export failure is caught and logged
with the file path and the cause. -/
theorem processFile_ok_of_makedirs_ok (input_dir output_dir : Path)
    (file_ext : String) (root : Path) (filename : String) (env : FileEnv)
    (hmk : env.makedirsResult = .ok ()) :
    ∃ out eff,
      processFile input_dir output_dir file_ext root filename env = .ok (out, eff) ∧
      ∀ msg, out = .failed msg →
        eff.logs = [errorLog (pathJoin root [filename]) msg] := by
  obtain ⟨mk, dec, vad, ex⟩ := env
  have hmk' : mk = Except.ok () := hmk
  subst hmk'
  rw [processFile]
  split
  · cases dec with
    | error e => exact ⟨_, _, rfl, fun msg h => by cases h; rfl⟩
    | ok a =>
      obtain ⟨audio, sr⟩ := a
      cases vad with
      | error e => exact ⟨_, _, rfl, fun msg h => by cases h; rfl⟩
      | ok tl =>
        cases tl with
        | nil => exact ⟨_, _, rfl, fun msg h => by cases h⟩
        | cons i rest =>
          cases ex with
          | error e => exact ⟨_, _, rfl, fun msg h => by cases h; rfl⟩
          | ok u => exact ⟨_, _, rfl, fun msg h => by cases h⟩
  · exact ⟨_, _, rfl, fun msg h => by cases h⟩

/-! ### Demonstration oracles used by concrete counterexamples and witnesses -/

/-- Oracle of a file whose `os.makedirs` call raises. -/
def demoEnvMkdirFail : FileEnv :=
  ⟨.error "PermissionError: [Errno 13] Permission denied", .ok ([1, 0], 16000),
    .ok [⟨0, 1⟩], .ok ()⟩

/-- Oracle of a file for which every external call succeeds. -/
def demoEnvOk : FileEnv :=
  ⟨.ok (), .ok ([1, 0], 16000), .ok [⟨0, 1⟩], .ok ()⟩

/-- Oracle of a file in which the detector finds no speech at all. -/
def demoEnvNoSpeech : FileEnv :=
  ⟨.ok (), .ok ([1, 0], 16000), .ok [], .ok ()⟩

/-- Oracle of a file whose detected timeline is a single degenerate
zero-length interval [2, 2). -/
def demoEnvDegenerate : FileEnv :=
  ⟨.ok (), .ok ([1, 0, 1, 0], 1), .ok [⟨2, 2⟩], .ok ()⟩

/-! ### Claim C1 -/

/-- Claim C1, counterexample: the claim says an exception at ANY per-file
stage — the per-file path/directory preparation included — is caught at the
file's boundary and the batch continues.  In the code `os.makedirs`
(cleaning_fn.py line 63) runs outside the try block: here the first file's
makedirs call raises, the batch aborts with that exception, and the second
(healthy) file is never processed. -/
theorem c1_counterexample_mkdir_aborts_batch :
    runBatch ["in"] ["out"] ".wav"
        [⟨["in"], "a.wav", demoEnvMkdirFail⟩, ⟨["in"], "b.wav", demoEnvOk⟩]
      = .error "PermissionError: [Errno 13] Permission denied" := rfl

/-- Claim C1, amended: any exception raised at the stages inside the try
block — decode, detect, resolve, slice, export — is caught at the file's
boundary and logged with the file path and cause, and a batch whose per-file
directory preparation (the one per-file stage outside the try block) succeeds
processes every file; an exception in that directory preparation itself is
not caught and aborts the batch. -/
theorem c1_amended_failure_isolation :
    (∀ input_dir output_dir : Path, ∀ file_ext : String, ∀ root : Path,
        ∀ filename : String, ∀ env : FileEnv,
        env.makedirsResult = .ok () →
        ∃ out eff,
          processFile input_dir output_dir file_ext root filename env = .ok (out, eff) ∧
          ∀ msg, out = .failed msg →
            eff.logs = [errorLog (pathJoin root [filename]) msg]) ∧
    (∀ input_dir output_dir : Path, ∀ file_ext : String, ∀ jobs : List FileJob,
        (∀ j ∈ jobs, j.env.makedirsResult = .ok ()) →
        ∃ rs, runBatch input_dir output_dir file_ext jobs = .ok rs ∧
          rs.length = jobs.length) := by
  constructor
  · exact processFile_ok_of_makedirs_ok
  · intro input_dir output_dir file_ext jobs hjobs
    induction jobs with
    | nil => exact ⟨[], rfl, rfl⟩
    | cons j rest ih =>
      obtain ⟨out, eff, hpe, _⟩ :=
        processFile_ok_of_makedirs_ok input_dir output_dir file_ext j.root j.filename
          j.env (hjobs j (List.mem_cons_self j rest))
      obtain ⟨rs, hrs, hlen⟩ := ih (fun x hx => hjobs x (List.mem_cons_of_mem j hx))
      exact ⟨(out, eff) :: rs, by rw [runBatch, hpe, hrs]; rfl, by simp [hlen]⟩

/-! ### Claim C3 -/

/-- Claim C3 (confirmed): for a file whose detected SpeechTimeline is empty,
the pipeline logs a "no speech" notice (a skip, not an error), writes no
output file, and the batch continues with the next file. -/
theorem c3_empty_timeline_skips_without_output (input_dir output_dir : Path)
    (file_ext : String) (root : Path) (filename : String) (env : FileEnv)
    (audio : List ℚ) (sr : ℕ)
    (hext : pyEndsWith (pyLower filename) (pyLower file_ext) = true)
    (hmk : env.makedirsResult = .ok ())
    (hdec : env.decodeResult = .ok (audio, sr))
    (hvad : env.vadResult = .ok []) :
    ∃ eff,
      processFile input_dir output_dir file_ext root filename env
        = .ok (.noSpeech, eff) ∧
      eff.filesWritten = [] ∧
      eff.logs = [noSpeechLog (pathJoin root [filename])] ∧
      ∀ rest, runBatch input_dir output_dir file_ext (⟨root, filename, env⟩ :: rest)
        = (runBatch input_dir output_dir file_ext rest).map
            ((FileOutcome.noSpeech, eff) :: ·) := by
  have hpe : processFile input_dir output_dir file_ext root filename env
      = .ok (.noSpeech,
          ⟨[dirname (pathJoin output_dir (relPath (pathJoin root [filename]) input_dir))],
            [], [noSpeechLog (pathJoin root [filename])]⟩) := by
    rw [processFile]
    rw [if_pos hext, hmk, hdec, hvad]
    rfl
  exact ⟨_, hpe, rfl, rfl, fun rest => by rw [runBatch, hpe]⟩

/-- Witness for claim C3's theorem, at a concrete file in which the detector
returns an empty timeline. -/
theorem c3_empty_timeline_skips_without_output_witness :
    ∃ eff,
      processFile ["in"] ["out"] ".wav" ["in"] "a.wav" demoEnvNoSpeech
        = .ok (.noSpeech, eff) ∧
      eff.filesWritten = [] ∧
      eff.logs = [noSpeechLog (pathJoin ["in"] ["a.wav"])] ∧
      ∀ rest, runBatch ["in"] ["out"] ".wav" (⟨["in"], "a.wav", demoEnvNoSpeech⟩ :: rest)
        = (runBatch ["in"] ["out"] ".wav" rest).map
            ((FileOutcome.noSpeech, eff) :: ·) :=
  c3_empty_timeline_skips_without_output ["in"] ["out"] ".wav" ["in"] "a.wav"
    demoEnvNoSpeech [1, 0] 16000 rfl rfl rfl rfl

/-! ### Claim C4 -/

/-- Rounding is monotone on the rationals. -/
theorem round_mono_rat {x y : ℚ} (h : x ≤ y) : round x ≤ round y := by
  rw [round_eq, round_eq]
  exact Int.floor_le_floor (by linarith)

/-- Claim C4, counterexample: the claim says a degenerate resolved window
(end ≤ start) is treated as "no speech" with no output file.  With the
single degenerate interval [2, 2) the code instead reaches export and
produces an output file (with an empty sample payload): the "no speech"
branch tests only timeline emptiness (cleaning_fn.py line 82), and no
degenerate-window check exists between lines 87 and 98. -/
theorem c4_counterexample_degenerate_exports :
    processFile ["in"] ["out"] ".wav" ["in"] "a.wav" demoEnvDegenerate
      = .ok (.exported, ⟨[["out"]], [(["out", "a.wav"], [])], []⟩) := by
  simp only [processFile, demoEnvDegenerate, pyEndsWith, pyLower, segmentSliceMs,
    resolveWindow]
  norm_num [round_eq, pathJoin, relPath, dirname]

/-- Claim C4, amended: a non-empty timeline whose resolved window has
end ≤ start is never treated as "no speech"; with the external calls
succeeding, the code slices an empty frame range and still exports,
producing an output file with an empty sample payload. -/
theorem c4_amended_degenerate_window_still_exports (input_dir output_dir : Path)
    (file_ext : String) (root : Path) (filename : String) (env : FileEnv)
    (audio : List ℚ) (sr : ℕ) (timeline : List SpeechInterval) (w : TrimWindow)
    (hext : pyEndsWith (pyLower filename) (pyLower file_ext) = true)
    (hmk : env.makedirsResult = .ok ())
    (hdec : env.decodeResult = .ok (audio, sr))
    (hvad : env.vadResult = .ok timeline)
    (hres : resolveWindow timeline = some w)
    (hdeg : w.stop ≤ w.start)
    (hexp : env.exportResult = .ok ()) :
    processFile input_dir output_dir file_ext root filename env
      = .ok (.exported,
          ⟨[dirname (pathJoin output_dir (relPath (pathJoin root [filename]) input_dir))],
            [(pathJoin output_dir (relPath (pathJoin root [filename]) input_dir), [])],
            []⟩) := by
  have h1000 : ((1000 : ℚ)) ≠ 0 := by norm_num
  have hempty : segmentSliceMs (audio.map audioSampleToInt16) sr
      (w.start * 1000) (w.stop * 1000) = [] := by
    rw [segmentSliceMs]
    rw [mul_div_cancel_right₀ _ h1000, mul_div_cancel_right₀ _ h1000]
    apply List.drop_eq_nil_iff.mpr
    rw [List.length_take]
    have hmul : w.stop * (sr : ℚ) ≤ w.start * (sr : ℚ) :=
      mul_le_mul_of_nonneg_right hdeg (by positivity)
    have hround := Int.toNat_le_toNat (round_mono_rat hmul)
    exact le_trans inf_le_left hround
  rw [processFile, if_pos hext, hmk, hdec, hvad]
  simp only [hres, hexp, hempty]

/-- Witness for claim C4's amended theorem, at the concrete degenerate
timeline [[2, 2)]. -/
theorem c4_amended_degenerate_window_still_exports_witness :
    processFile ["in"] ["out"] ".wav" ["in"] "a.wav" demoEnvDegenerate
      = .ok (.exported,
          ⟨[dirname (pathJoin ["out"] (relPath (pathJoin ["in"] ["a.wav"]) ["in"]))],
            [(pathJoin ["out"] (relPath (pathJoin ["in"] ["a.wav"]) ["in"]), [])],
            []⟩) :=
  c4_amended_degenerate_window_still_exports ["in"] ["out"] ".wav" ["in"] "a.wav"
    demoEnvDegenerate [1, 0, 1, 0] 1 [⟨2, 2⟩] ⟨2, 2⟩ rfl rfl rfl rfl rfl le_rfl rfl

/-! ### Claim C7 -/

/-- Claim C7, counterexample: the claim says no output directory is created
for a file that yields no output.  Here the detector finds no speech, no
output file is produced, yet the mirrored output subdirectory has already
been created: `os.makedirs` (cleaning_fn.py line 63) runs for every
qualifying file before decoding, not lazily before export. -/
theorem c7_counterexample_dir_created_without_output :
    processFile ["in"] ["out"] ".wav" ["in", "sub"] "a.wav" demoEnvNoSpeech
      = .ok (.noSpeech,
          ⟨[["out", "sub"]], [], [noSpeechLog ["in", "sub", "a.wav"]]⟩) := rfl

/-- Claim C7, amended: the output path is the input path's location relative
to the input root re-rooted onto the output root (exact directory mirroring),
but the mirrored output subdirectory is created eagerly — for every
qualifying file, before decoding — even when the file yields no output. -/
theorem c7_amended_mirrored_but_eager_dirs (input_dir output_dir sub : Path)
    (file_ext : String) (filename : String) (env : FileEnv)
    (hext : pyEndsWith (pyLower filename) (pyLower file_ext) = true)
    (hmk : env.makedirsResult = .ok ()) :
    ∃ out eff,
      processFile input_dir output_dir file_ext (pathJoin input_dir sub) filename env
        = .ok (out, eff) ∧
      eff.dirsCreated = [pathJoin output_dir sub] ∧
      ∀ fw ∈ eff.filesWritten,
        fw.1 = pathJoin output_dir (pathJoin sub [filename]) := by
  have hrel : relPath (pathJoin (pathJoin input_dir sub) [filename]) input_dir
      = pathJoin sub [filename] := relPath_pathJoin input_dir sub filename
  have hdir : dirname (pathJoin output_dir (pathJoin sub [filename]))
      = pathJoin output_dir sub := by
    show (output_dir ++ (sub ++ [filename])).dropLast = output_dir ++ sub
    rw [← List.append_assoc]
    exact List.dropLast_concat
  obtain ⟨mk, dec, vad, ex⟩ := env
  have hmk' : mk = Except.ok () := hmk
  subst hmk'
  simp only [processFile, hext, if_true, hrel, hdir]
  cases dec with
  | error e => exact ⟨_, _, rfl, rfl, by intro fw hfw; cases hfw⟩
  | ok a =>
    obtain ⟨audio, sr⟩ := a
    cases vad with
    | error e => exact ⟨_, _, rfl, rfl, by intro fw hfw; cases hfw⟩
    | ok tl =>
      cases tl with
      | nil => exact ⟨_, _, rfl, rfl, by intro fw hfw; cases hfw⟩
      | cons i rest =>
        cases ex with
        | error e => exact ⟨_, _, rfl, rfl, by intro fw hfw; cases hfw⟩
        | ok u =>
          refine ⟨_, _, rfl, rfl, ?_⟩
          intro fw hfw
          rcases List.mem_singleton.mp hfw with h
          rw [h]

/-- Witness for claim C7's amended theorem, at a concrete file inside a
subdirectory of the input root. -/
theorem c7_amended_mirrored_but_eager_dirs_witness :
    ∃ out eff,
      processFile ["in"] ["out"] ".wav" (pathJoin ["in"] ["sub"]) "a.wav" demoEnvOk
        = .ok (out, eff) ∧
      eff.dirsCreated = [pathJoin ["out"] ["sub"]] ∧
      ∀ fw ∈ eff.filesWritten,
        fw.1 = pathJoin ["out"] (pathJoin ["sub"] ["a.wav"]) :=
  c7_amended_mirrored_but_eager_dirs ["in"] ["out"] ["sub"] ".wav" "a.wav"
    demoEnvOk rfl rfl

/-! ### Claim C2 -/

/-- Claim C2 (confirmed): for every non-empty SpeechTimeline the resolved trim
window starts at the first interval's start and ends at the last interval's
end, regardless of the number of interior intervals or the gaps between
them. -/
theorem c2_resolve_window_extremes (timeline : List SpeechInterval)
    (h : timeline ≠ []) :
    ∃ w, resolveWindow timeline = some w ∧
      w.start = (timeline.get ⟨0, List.length_pos.mpr h⟩).start ∧
      w.stop = (timeline.getLast h).stop := by
  cases timeline with
  | nil => exact absurd rfl h
  | cons i rest => exact ⟨_, rfl, rfl, rfl⟩

/-- Witness for claim C2's theorem, at a two-interval timeline with an
interior gap. -/
theorem c2_resolve_window_extremes_witness :
    ∃ w, resolveWindow [⟨2, 3⟩, ⟨15 / 2, 9⟩] = some w ∧
      w.start = (([⟨2, 3⟩, ⟨15 / 2, 9⟩] : List SpeechInterval).get
        ⟨0, List.length_pos.mpr (List.cons_ne_nil _ _)⟩).start ∧
      w.stop = (([⟨2, 3⟩, ⟨15 / 2, 9⟩] : List SpeechInterval).getLast
        (List.cons_ne_nil _ _)).stop :=
  c2_resolve_window_extremes [⟨2, 3⟩, ⟨15 / 2, 9⟩] (List.cons_ne_nil _ _)

/-! ### Claim C5 -/

/-- Claim C5 (confirmed, spec-modelled): slicing the fixed-point buffer to the
trim window converts each boundary time t (seconds, handed over as t × 1000
milliseconds) to the sample-frame offset round(t × frame_rate), and returns
exactly the contiguous frame sub-range [start_offset, end_offset). -/
theorem c5_slice_offsets_round (data : List ℤ) (frame_rate : ℕ) (s e : ℚ)
    (hse : (round (s * frame_rate)).toNat ≤ (round (e * frame_rate)).toNat)
    (he : (round (e * frame_rate)).toNat ≤ data.length) :
    (segmentSliceMs data frame_rate (s * 1000) (e * 1000)).length
        = (round (e * frame_rate)).toNat - (round (s * frame_rate)).toNat ∧
    ∀ i : ℕ, i < (round (e * frame_rate)).toNat - (round (s * frame_rate)).toNat →
      (segmentSliceMs data frame_rate (s * 1000) (e * 1000))[i]?
        = data[(round (s * frame_rate)).toNat + i]? := by
  have h1000 : ((1000 : ℚ)) ≠ 0 := by norm_num
  have hs' : s * 1000 / 1000 * (frame_rate : ℚ) = s * frame_rate := by
    rw [mul_div_cancel_right₀ _ h1000]
  have he' : e * 1000 / 1000 * (frame_rate : ℚ) = e * frame_rate := by
    rw [mul_div_cancel_right₀ _ h1000]
  simp only [segmentSliceMs, hs', he']
  constructor
  · rw [List.length_drop, List.length_take, min_eq_left he]
  · intro i hi
    rw [List.getElem?_drop, List.getElem?_take, if_pos (by omega)]

/-- Witness for claim C5's theorem: a five-frame buffer at 1 Hz sliced to
[1 s, 3 s). -/
theorem c5_slice_offsets_round_witness :
    (segmentSliceMs [10, 20, 30, 40, 50] 1 ((1 : ℚ) * 1000) ((3 : ℚ) * 1000)).length
        = (round ((3 : ℚ) * ((1 : ℕ) : ℚ))).toNat
            - (round ((1 : ℚ) * ((1 : ℕ) : ℚ))).toNat ∧
    ∀ i : ℕ, i < (round ((3 : ℚ) * ((1 : ℕ) : ℚ))).toNat
            - (round ((1 : ℚ) * ((1 : ℕ) : ℚ))).toNat →
      (segmentSliceMs [10, 20, 30, 40, 50] 1 ((1 : ℚ) * 1000) ((3 : ℚ) * 1000))[i]?
        = ([10, 20, 30, 40, 50] : List ℤ)[(round ((1 : ℚ) * ((1 : ℕ) : ℚ))).toNat + i]? :=
  c5_slice_offsets_round [10, 20, 30, 40, 50] 1 1 3
    (by norm_num [round_eq]) (by norm_num [round_eq])

/-! ### Claim C6 -/

/-- Claim C6 (confirmed): the float-to-fixed-point conversion multiplies each
sample by 32767 and truncates toward zero — for every sample the result is
the 16-bit interpretation of trunc(s × 32767) — and it is not
round-to-nearest: there is a sample on which the two disagree. -/
theorem c6_sample_conversion_truncates :
    (∀ s : ℚ, audioSampleToInt16 s = wrap16 (truncTowardZero (s * 32767))) ∧
    (∃ s : ℚ, audioSampleToInt16 s ≠ wrap16 (round (s * 32767))) := by
  constructor
  · intro s
    rw [audioSampleToInt16, npCastInt16, ratTrunc_eq_truncTowardZero]
  · refine ⟨1 / 65534, ?_⟩
    have h2 : (1 / 65534 : ℚ) * 32767 = 1 / 2 := by norm_num
    rw [audioSampleToInt16, npCastInt16, ratTrunc_eq_truncTowardZero, h2]
    have htr : truncTowardZero (1 / 2 : ℚ) = 0 := by
      rw [truncTowardZero, if_pos (by norm_num)]
      norm_num
    have hrd : round (1 / 2 : ℚ) = 1 := by norm_num [round_eq]
    rw [htr, hrd]
    decide

/-! ### Claim C10 -/

/-- Claim C10 (confirmed): the conversion is non-saturating — every sample in
[-1, 1] lands in [-32767, 32767] (so -32768 is never produced there), while a
sample with magnitude above 32768/32767 makes the product s × 32767 leave the
int16 range and the conversion wraps in the 16-bit two's-complement domain
rather than clamping to the nearest representable value (a sample where
wrapping and clamping disagree is exhibited). -/
theorem c10_conversion_nonsaturating :
    (∀ s : ℚ, -1 ≤ s → s ≤ 1 →
      -32767 ≤ audioSampleToInt16 s ∧ audioSampleToInt16 s ≤ 32767) ∧
    (∀ s : ℚ, 32768 / 32767 < |s| →
      (32767 < s * 32767 ∨ s * 32767 < -32768) ∧
      audioSampleToInt16 s = wrap16 (truncTowardZero (s * 32767))) ∧
    (∃ s : ℚ, 32768 / 32767 < |s| ∧
      audioSampleToInt16 s ≠ clamp16 (truncTowardZero (s * 32767))) := by
  refine ⟨?_, ?_, ?_⟩
  · intro s hs1 hs2
    have hb := truncTowardZero_bounds (q := s * 32767) (B := 32767)
      (by norm_num) (by push_cast; nlinarith) (by push_cast; nlinarith)
    have hw : wrap16 (truncTowardZero (s * 32767)) = truncTowardZero (s * 32767) :=
      wrap16_eq_self (by omega) (by omega)
    rw [audioSampleToInt16, npCastInt16, ratTrunc_eq_truncTowardZero, hw]
    exact ⟨hb.1, hb.2⟩
  · intro s hs
    constructor
    · have h1 : (32768 / 32767 : ℚ) * 32767 < |s| * 32767 :=
        mul_lt_mul_of_pos_right hs (by norm_num)
      have h2 : (32768 / 32767 : ℚ) * 32767 = 32768 := by norm_num
      have habs : (32768 : ℚ) < |s * 32767| := by
        rw [abs_mul, abs_of_nonneg (show (0 : ℚ) ≤ 32767 by norm_num)]
        linarith
      rcases lt_abs.mp habs with h | h
      · exact Or.inl (by linarith)
      · exact Or.inr (by linarith)
    · rw [audioSampleToInt16, npCastInt16, ratTrunc_eq_truncTowardZero]
  · have habs2 : |(2 : ℚ)| = 2 := abs_of_nonneg (by norm_num)
    refine ⟨2, by rw [habs2]; norm_num, ?_⟩
    have h2 : (2 : ℚ) * 32767 = 65534 := by norm_num
    rw [audioSampleToInt16, npCastInt16, ratTrunc_eq_truncTowardZero, h2]
    have htr : truncTowardZero (65534 : ℚ) = 65534 := by
      rw [truncTowardZero, if_pos (by norm_num)]
      norm_num
    rw [htr]
    decide

/-! ### Helper lemmas on the consolidator -/

/-- Every row surviving deduplication has a key outside the already-seen
set. -/
theorem dropDupByPath_path_not_mem (l : List MergedRow) :
    ∀ (seen : List String), ∀ r ∈ dropDupByPath l seen, r.path ∉ seen := by
  induction l with
  | nil => intro seen r hr; cases hr
  | cons x xs ih =>
    intro seen r hr
    rw [dropDupByPath] at hr
    by_cases hx : x.path ∈ seen
    · rw [if_pos hx] at hr
      exact ih seen r hr
    · rw [if_neg hx] at hr
      rcases List.mem_cons.mp hr with h | h
      · rw [h]; exact hx
      · have := ih (x.path :: seen) r h
        exact fun hc => this (List.mem_cons_of_mem _ hc)

/-- The deduplicated table has pairwise-distinct path keys. -/
theorem dropDupByPath_pairwise (l : List MergedRow) :
    ∀ (seen : List String),
      (dropDupByPath l seen).Pairwise (fun a b => a.path ≠ b.path) := by
  induction l with
  | nil => intro seen; exact List.Pairwise.nil
  | cons x xs ih =>
    intro seen
    rw [dropDupByPath]
    by_cases hx : x.path ∈ seen
    · rw [if_pos hx]; exact ih seen
    · rw [if_neg hx]
      refine List.pairwise_cons.mpr ⟨?_, ih _⟩
      intro b hb
      have hnot := dropDupByPath_path_not_mem xs (x.path :: seen) b hb
      intro he
      exact hnot (by rw [← he]; exact List.mem_cons_self _ _)

/-- Deduplication keeps, for each key not yet seen, exactly the first row
bearing it. -/
theorem dropDupByPath_find_first (l : List MergedRow) :
    ∀ (seen : List String) (p : String), p ∉ seen →
      (dropDupByPath l seen).find? (fun r => r.path == p)
        = l.find? (fun r => r.path == p) := by
  induction l with
  | nil => intro seen p hp; rfl
  | cons x xs ih =>
    intro seen p hp
    rw [dropDupByPath]
    by_cases hx : x.path ∈ seen
    · have hne : (x.path == p) = false := by
        refine beq_eq_false_iff_ne.mpr ?_
        intro he
        exact hp (he ▸ hx)
      rw [if_pos hx, ih seen p hp]
      simp only [List.find?_cons, hne]
    · rw [if_neg hx]
      cases hbe : (x.path == p) with
      | true => simp only [List.find?_cons, hbe]
      | false =>
        simp only [List.find?_cons, hbe]
        apply ih
        intro hmem
        rcases List.mem_cons.mp hmem with h | h
        · exact absurd h.symm (beq_eq_false_iff_ne.mp hbe)
        · exact hp h

/-- The merge expansion of one tagged row is non-empty and preserves the
row's path, columns and source file. -/
theorem leftMergeRow_shape (durations : List (String × String)) (r : TaggedRow) :
    leftMergeRow durations r ≠ [] ∧
    ∀ m ∈ leftMergeRow durations r,
      m.path = r.path ∧ m.cols = r.cols ∧ m.source_file = r.source_file := by
  rw [leftMergeRow]
  split
  · refine ⟨by simp, ?_⟩
    intro m hm
    rw [List.mem_singleton.mp hm]
    exact ⟨rfl, rfl, rfl⟩
  · refine ⟨by simp, ?_⟩
    intro m hm
    rcases List.mem_map.mp hm with ⟨d, _, hdm⟩
    rw [← hdm]
    exact ⟨rfl, rfl, rfl⟩

/-- Finding a key in a block whose rows all carry that key returns its head
element (as a member of the block). -/
theorem find_in_uniform_block_pos (l : List MergedRow) (q p : String)
    (hne : l ≠ []) (hall : ∀ m ∈ l, m.path = q) (hqp : (q == p) = true) :
    ∃ m, l.find? (fun t => t.path == p) = some m ∧ m ∈ l := by
  cases l with
  | nil => exact absurd rfl hne
  | cons x xs =>
    have hx : (x.path == p) = true := by
      rw [hall x (List.mem_cons_self _ _)]
      exact hqp
    exact ⟨x, by simp only [List.find?_cons, hx], List.mem_cons_self _ _⟩

/-- Finding a key in a block whose rows all carry a different key fails. -/
theorem find_in_uniform_block_neg (l : List MergedRow) (q p : String)
    (hall : ∀ m ∈ l, m.path = q) (hqp : (q == p) = false) :
    l.find? (fun t => t.path == p) = none := by
  rw [List.find?_eq_none]
  intro x hx
  simp [hall x hx, hqp]

/-- Within the flattened expansion of a row list, the first hit for a key is
the expansion of the first hit in the row list, with identical path, columns
and source file. -/
theorem flatten_leftMerge_find_first (durs : List (String × String)) (p : String) :
    ∀ (L : List TaggedRow) (r : TaggedRow),
      L.find? (fun t => t.path == p) = some r →
      ∃ m, ((L.map (leftMergeRow durs)).flatten).find? (fun t => t.path == p)
          = some m ∧
        m.path = r.path ∧ m.cols = r.cols ∧ m.source_file = r.source_file := by
  intro L
  induction L with
  | nil => intro r hr; cases hr
  | cons x xs ih =>
    intro r hr
    rw [List.map_cons, List.flatten_cons, List.find?_append]
    obtain ⟨hblock, hall⟩ := leftMergeRow_shape durs x
    cases hbe : (x.path == p) with
    | true =>
      simp only [List.find?_cons, hbe] at hr
      injection hr with hr'
      obtain ⟨m, hm, hmem⟩ := find_in_uniform_block_pos (leftMergeRow durs x)
        x.path p hblock (fun m hm => (hall m hm).1) hbe
      obtain ⟨h1, h2, h3⟩ := hall m hmem
      subst hr'
      exact ⟨m, by rw [hm]; rfl, h1, h2, h3⟩
    | false =>
      simp only [List.find?_cons, hbe] at hr
      obtain ⟨m, hm, h1, h2, h3⟩ := ih r hr
      have hnone : (leftMergeRow durs x).find? (fun t => t.path == p) = none :=
        find_in_uniform_block_neg _ x.path p (fun m hm => (hall m hm).1) hbe
      exact ⟨m, by rw [hnone, hm]; rfl, h1, h2, h3⟩

/-- The duration merge preserves, for each path key, the projections of the
first combined row bearing that key. -/
theorem mergedRows_find_first (tables : String → Option (List RawRow))
    (durations : Option (List (String × String))) (p : String) (r : TaggedRow)
    (hr : (combinedRows tables).find? (fun t => t.path == p) = some r) :
    ∃ m, (mergedRows tables durations).find? (fun t => t.path == p) = some m ∧
      m.path = r.path ∧ m.cols = r.cols ∧ m.source_file = r.source_file := by
  rcases durations with _ | durs
  · rw [mergedRows, List.find?_map]
    have hcomp : ((fun t : MergedRow => t.path == p) ∘
        (fun t : TaggedRow =>
          (⟨t.path, t.cols, t.source_file, none⟩ : MergedRow)))
        = fun t : TaggedRow => t.path == p := rfl
    rw [hcomp, hr]
    exact ⟨_, rfl, rfl, rfl, rfl⟩
  · exact flatten_leftMerge_find_first durs p (combinedRows tables) r hr

/-- In a table with pairwise-distinct path keys, two rows with the same key
coincide. -/
theorem eq_of_pairwise_path {l : List MergedRow}
    (hp : l.Pairwise (fun a b => a.path ≠ b.path))
    {a b : MergedRow} (ha : a ∈ l) (hb : b ∈ l) (hab : a.path = b.path) :
    a = b := by
  induction l with
  | nil => cases ha
  | cons x xs ih =>
    rcases List.pairwise_cons.mp hp with ⟨hx, hxs⟩
    rcases List.mem_cons.mp ha with h1 | h1 <;> rcases List.mem_cons.mp hb with h2 | h2
    · rw [h1, h2]
    · exact absurd (h1 ▸ hab) (hx b h2)
    · subst h2
      exact absurd hab (Ne.symm (hx a h1))
    · exact ih hxs h1 h2

/-! ### Claim C8 -/

/-- Claim C8 (confirmed): the consolidator's saved table is deduplicated on
the per-record path key — rows at any two distinct positions of the saved
table have different path values — and the logged artifact record carries the
output file path, the saved file's byte size and the table's row count. -/
theorem c8_dedup_table_and_artifact (output_dir : Path)
    (tables : String → Option (List RawRow))
    (durations : Option (List (String × String)))
    (hne : (gatherDfs tables).isEmpty = false) :
    ∃ tbl out_path art,
      loaderRun output_dir tables durations = some (tbl, out_path, art) ∧
      tbl.Pairwise (fun a b => a.path ≠ b.path) ∧
      out_path = pathJoin output_dir ["complete_data.tsv"] ∧
      art.file_path = out_path ∧
      art.size_bytes = (tableToTsv tbl).utf8ByteSize ∧
      art.num_rows = tbl.length := by
  have hrun : loaderRun output_dir tables durations
      = some (dropDupByPath (mergedRows tables durations) [],
          pathJoin output_dir ["complete_data.tsv"],
          ⟨pathJoin output_dir ["complete_data.tsv"],
            (tableToTsv (dropDupByPath (mergedRows tables durations) [])).utf8ByteSize,
            (dropDupByPath (mergedRows tables durations) []).length⟩) := by
    rw [loaderRun, if_neg (by simp [hne])]
  exact ⟨_, _, _, hrun, dropDupByPath_pairwise _ [], rfl, rfl, rfl, rfl⟩

/-- Witness for claim C8's theorem: an input directory holding one split file
with a duplicated path key. -/
theorem c8_dedup_table_and_artifact_witness :
    ∃ tbl out_path art,
      loaderRun ["out"]
          (fun fn => if fn = "train.tsv"
            then some [⟨"clip_a", ["s"]⟩, ⟨"clip_a", ["t"]⟩] else none)
          none
        = some (tbl, out_path, art) ∧
      tbl.Pairwise (fun a b => a.path ≠ b.path) ∧
      out_path = pathJoin ["out"] ["complete_data.tsv"] ∧
      art.file_path = out_path ∧
      art.size_bytes = (tableToTsv tbl).utf8ByteSize ∧
      art.num_rows = tbl.length :=
  c8_dedup_table_and_artifact ["out"]
    (fun fn => if fn = "train.tsv"
      then some [⟨"clip_a", ["s"]⟩, ⟨"clip_a", ["t"]⟩] else none)
    none rfl

/-! ### Claim C9 -/

/-- Claim C9 (confirmed): when several input rows share the same path value,
the saved table retains exactly the first occurrence in concatenation order —
the order given by the fixed sequence train.tsv, test.tsv, dev.tsv,
validated.tsv, other.tsv over the present files — and the retained row's
source_file column records the file that first occurrence came from; every
saved row with that path is that single retained row. -/
theorem c9_first_occurrence_retained (tables : String → Option (List RawRow))
    (durations : Option (List (String × String))) (p : String) (r : TaggedRow)
    (hr : (combinedRows tables).find? (fun t => t.path == p) = some r) :
    ∃ m, (dropDupByPath (mergedRows tables durations) []).find?
          (fun t => t.path == p) = some m ∧
      m.path = r.path ∧ m.cols = r.cols ∧ m.source_file = r.source_file ∧
      ∀ m' ∈ dropDupByPath (mergedRows tables durations) [],
        m'.path = p → m' = m := by
  obtain ⟨m, hm, h1, h2, h3⟩ := mergedRows_find_first tables durations p r hr
  have hfind : (dropDupByPath (mergedRows tables durations) []).find?
      (fun t => t.path == p) = some m := by
    rw [dropDupByPath_find_first _ [] p (by simp), hm]
  refine ⟨m, hfind, h1, h2, h3, ?_⟩
  intro m' hm' hp'
  have hmem : m ∈ dropDupByPath (mergedRows tables durations) [] :=
    List.mem_of_find?_eq_some hfind
  have hmp : m.path = p := by simpa using List.find?_some hfind
  exact eq_of_pairwise_path (dropDupByPath_pairwise _ []) hm' hmem
    (by rw [hp', hmp])

/-- Witness for claim C9's theorem: the path "dup" appears in both train.tsv
and test.tsv, and the durations table carries two matching entries. -/
theorem c9_first_occurrence_retained_witness :
    ∃ m, (dropDupByPath
          (mergedRows
            (fun fn => if fn = "train.tsv" then some [⟨"dup", ["trainrow"]⟩]
              else if fn = "test.tsv" then some [⟨"dup", ["testrow"]⟩] else none)
            (some [("dup", "100"), ("dup", "200")])) []).find?
          (fun t => t.path == "dup") = some m ∧
      m.path = (⟨"dup", ["trainrow"], "train.tsv"⟩ : TaggedRow).path ∧
      m.cols = (⟨"dup", ["trainrow"], "train.tsv"⟩ : TaggedRow).cols ∧
      m.source_file = (⟨"dup", ["trainrow"], "train.tsv"⟩ : TaggedRow).source_file ∧
      ∀ m' ∈ dropDupByPath
          (mergedRows
            (fun fn => if fn = "train.tsv" then some [⟨"dup", ["trainrow"]⟩]
              else if fn = "test.tsv" then some [⟨"dup", ["testrow"]⟩] else none)
            (some [("dup", "100"), ("dup", "200")])) [],
        m'.path = "dup" → m' = m :=
  c9_first_occurrence_retained
    (fun fn => if fn = "train.tsv" then some [⟨"dup", ["trainrow"]⟩]
      else if fn = "test.tsv" then some [⟨"dup", ["testrow"]⟩] else none)
    (some [("dup", "100"), ("dup", "200")]) "dup"
    ⟨"dup", ["trainrow"], "train.tsv"⟩ rfl

end TTS
